import Mathlib

/-
Verification of the QKart cart/checkout service.

The definitions below are a shallow embedding of src/services/cart.service.js
(the cart service module) together with the pieces of the data model it
touches (User, Cart, CartItem, Product documents).  JavaScript numbers are
modelled as exact integers (`Int`); all monetary values in the repository are
small integers, for which JS float arithmetic is exact.  The persisted state
of MongoDB is modelled as `DB`: a list of user documents, cart documents and
product documents.  `findOne` becomes `List.find?` on the key used by the
source, `save` replaces the document with the matching key, and `create`
appends a new document.
-/

namespace Qkart

/-- Modelled from the spec: `config.default_address`, the distinguished
sentinel meaning "user has not supplied a real address" (config/config.js is
plumbing outside the core source).  Its concrete value is irrelevant to every
theorem below; only equality with it is ever tested, exactly as in
`user.hasSetNonDefaultAddress` (src/src/models/user.model.js) and in
`checkout` (src/services/cart.service.js line 219). -/
def default_address : String := "ADDRESS_NOT_SET"

/-- A product document: `_id` and `cost` (src/spec data model). -/
structure Product where
  pid : String
  cost : Int
deriving DecidableEq, Repr

/-- A cart line: `{ product, quantity }` as pushed by `addProductToCart`. -/
structure CartItem where
  product : Product
  quantity : Int
deriving DecidableEq, Repr

/-- A cart document: keyed by `email`, holding the `cartItems` array. -/
structure Cart where
  email : String
  cartItems : List CartItem
deriving DecidableEq, Repr

/-- A user document: the fields of src/src/models/user.model.js consumed by
the cart service (`email`, `walletMoney`, `address`). -/
structure User where
  email : String
  walletMoney : Int
  address : String
deriving DecidableEq, Repr

/-- The persisted MongoDB state visible to the cart service. -/
structure DB where
  users : List User
  carts : List Cart
  products : List Product
deriving DecidableEq, Repr

/-- The ApiError taxonomy thrown by src/services/cart.service.js, one
constructor per distinct (status, message) pair. -/
inductive CartError where
  /-- 404 "User Cart does not exist" (getCartByUser). -/
  | notFoundCart
  /-- 500 Internal Server Error (cart creation failure). -/
  | infrastructure
  /-- 400 "Product already in cart. Use the cart sidebar to update or remove
  product from cart". -/
  | conflictProductInCart
  /-- 400 "Product doesn't exist in database". -/
  | validationNoProduct
  /-- 400 "User does not have a cart". -/
  | validationNoCart
  /-- 400 "Product not in cart". -/
  | validationNotInCart
  /-- 400 "No items in the cart". -/
  | validationEmptyCart
  /-- 400 "Address unavailable". -/
  | validationAddressNotSet
  /-- 400 "Balance insufficient". -/
  | validationInsufficientBalance
deriving DecidableEq, Repr

/-- Embeds `Cart.findOne({email})`: first cart document with the given email. -/
def findCart (email : String) (carts : List Cart) : Option Cart :=
  carts.find? (fun c => c.email == email)

/-- Embeds `User.findOne({email})`: first user document with the given email. -/
def findUser (email : String) (users : List User) : Option User :=
  users.find? (fun u => u.email == email)

/-- Embeds `Product.findOne({_id})` / `Product.findById`: first product document
with the given id. -/
def findProduct (pid : String) (products : List Product) : Option Product :=
  products.find? (fun p => p.pid == pid)

/-- Embeds `cart.save()`: write the mutated cart document back over the stored
document with the same key. -/
def saveCart (carts : List Cart) (c : Cart) : List Cart :=
  carts.map (fun d => if d.email == c.email then c else d)

/-- Embeds `user.save()`: write the mutated user document back over the stored
document with the same key. -/
def saveUser (users : List User) (u : User) : List User :=
  users.map (fun v => if v.email == u.email then u else v)

/-- The index scan shared by addProductToCart, updateProductInCart and
deleteProductFromCart:
`for (i = 0; i < cartItems.length; i++) if (productId == cartItems[i].product._id) productIndex = i;`
carrying the loop counter `i` and the accumulator `productIndex` (initially
-1).  There is no `break`, so a later match overwrites an earlier one. -/
def productIndexLoop (pid : String) : List CartItem → Nat → Int → Int
  | [], _, acc => acc
  | it :: rest, i, acc =>
      productIndexLoop pid rest (i + 1)
        (if pid == it.product.pid then (i : Int) else acc)

/-- Value of `productIndex` as computed by the source's scan loop. -/
def productIndexOf (pid : String) (items : List CartItem) : Int :=
  productIndexLoop pid items 0 (-1)

/-- Embeds `cart.cartItems[productIndex].quantity = quantity`: in-place overwrite of
the quantity at one index. -/
def updateQtyAt : List CartItem → Nat → Int → List CartItem
  | [], _, _ => []
  | it :: rest, 0, q => { it with quantity := q } :: rest
  | it :: rest, Nat.succ n, q => it :: updateQtyAt rest n q

/-- Embeds `cart.cartItems.splice(productIndex, 1)`: in-place removal of the element
at one index. -/
def removeAt : List CartItem → Nat → List CartItem
  | [], _ => []
  | _ :: rest, 0 => rest
  | it :: rest, Nat.succ n => it :: removeAt rest n

/-- Embeds `addProductToCart(user, productId, quantity)` from
src/services/cart.service.js lines 51-100.  Returns the thrown error or the
returned cart, paired with the persisted state afterwards (`Cart.create`
persists immediately; `cart.save()` persists the pushed line). -/
def addProductToCart (db : DB) (user : User) (productId : String)
    (quantity : Int) : Except CartError Cart × DB :=
  let found : Cart × DB :=
    match findCart user.email db.carts with
    | some cart => (cart, db)
    | none =>
        let cart : Cart := { email := user.email, cartItems := [] }
        (cart, { db with carts := db.carts ++ [cart] })
  let cart := found.1
  let db := found.2
  let productIndex := productIndexOf productId cart.cartItems
  if productIndex == -1 then
    match findProduct productId db.products with
    | none => (.error .validationNoProduct, db)
    | some product =>
        let cart := { cart with
          cartItems := cart.cartItems ++ [{ product := product, quantity := quantity }] }
        (.ok cart, { db with carts := saveCart db.carts cart })
  else
    (.error .conflictProductInCart, db)

/-- Embeds `updateProductInCart(user, productId, quantity)` from
src/services/cart.service.js lines 126-160. -/
def updateProductInCart (db : DB) (user : User) (productId : String)
    (quantity : Int) : Except CartError Cart × DB :=
  match findCart user.email db.carts with
  | none => (.error .validationNoCart, db)
  | some cart =>
    match findProduct productId db.products with
    | none => (.error .validationNoProduct, db)
    | some _ =>
      let productIndex := productIndexOf productId cart.cartItems
      if productIndex == -1 then
        (.error .validationNotInCart, db)
      else
        let cart := { cart with
          cartItems := updateQtyAt cart.cartItems productIndex.toNat quantity }
        (.ok cart, { db with carts := saveCart db.carts cart })

/-- Embeds `deleteProductFromCart(user, productId)` from
src/services/cart.service.js lines 179-197. -/
def deleteProductFromCart (db : DB) (user : User) (productId : String) :
    Except CartError Unit × DB :=
  match findCart user.email db.carts with
  | none => (.error .validationNoCart, db)
  | some cart =>
      let productIndex := productIndexOf productId cart.cartItems
      if productIndex == -1 then
        (.error .validationNotInCart, db)
      else
        let cart := { cart with
          cartItems := removeAt cart.cartItems productIndex.toNat }
        (.ok (), { db with carts := saveCart db.carts cart })

/-- Total cost as computed by `checkout`:
`sub = cartItems.map(item => item.product.cost * item.quantity)` followed by
the summation loop `for (i...) total += sub[i]` starting from 0. -/
def cartTotal (items : List CartItem) : Int :=
  (items.map (fun item => item.product.cost * item.quantity)).foldl (· + ·) 0

/-- Result of one checkout invocation: success, a thrown ApiError, or a raw
storage failure propagated from a rejected `save()`. -/
inductive CheckoutResult where
  | ok
  | err (e : CartError)
  | storageFailure
deriving DecidableEq, Repr

/-- Embeds `checkout(user)` from src/services/cart.service.js lines 208-242, with
the success of each of the two persistence calls made explicit:
`userSaveOk` is whether `user.save()` succeeds, `cartSaveOk` whether
`cart.save()` succeeds.  A failed save persists nothing and propagates its
rejection, aborting the rest of the function; the second component is the
persisted state at the moment the function finishes or aborts. -/
def checkoutWith (db : DB) (user : User) (userSaveOk cartSaveOk : Bool) :
    CheckoutResult × DB :=
  match findCart user.email db.carts with
  | none => (.err .notFoundCart, db)
  | some cart =>
    if cart.cartItems.length == 0 then
      (.err .validationEmptyCart, db)
    else if user.address == default_address then
      (.err .validationAddressNotSet, db)
    else
      let total := cartTotal cart.cartItems
      let balance := user.walletMoney - total
      if balance < 0 then
        (.err .validationInsufficientBalance, db)
      else if userSaveOk then
        let db := { db with users := saveUser db.users { user with walletMoney := balance } }
        if cartSaveOk then
          let cart := { cart with cartItems := [] }
          (.ok, { db with carts := saveCart db.carts cart })
        else
          (.storageFailure, db)
      else
        (.storageFailure, db)

/-- Shorthand for `checkout(user)` when the storage layer is healthy. -/
def checkout (db : DB) (user : User) : CheckoutResult × DB :=
  checkoutWith db user true true

/-- One cart-mutating request, as dispatched by the HTTP layer. -/
inductive CartOp where
  | add (productId : String) (quantity : Int)
  | update (productId : String) (quantity : Int)
  | remove (productId : String)
deriving DecidableEq, Repr

/-- Persisted state after one cart-mutating request (whether it succeeded or
threw). -/
def runOp (db : DB) (user : User) : CartOp → DB
  | .add pid q => (addProductToCart db user pid q).2
  | .update pid q => (updateProductInCart db user pid q).2
  | .remove pid => (deleteProductFromCart db user pid).2

/-- Persisted state after a finite sequence of cart-mutating requests. -/
def runOps (db : DB) (user : User) (ops : List CartOp) : DB :=
  ops.foldl (fun d op => runOp d user op) db

/-- The product ids stored in a list of cart lines, in order. -/
def pids (items : List CartItem) : List String :=
  items.map (fun it => it.product.pid)

/-- Specification view of the source's scan loop: the index of the last
line whose product id matches, if any. -/
def lastMatchIdx (pid : String) : List CartItem → Option Nat
  | [] => none
  | it :: rest =>
    match lastMatchIdx pid rest with
    | some n => some (n + 1)
    | none => if pid == it.product.pid then some 0 else none

theorem productIndexLoop_eq (pid : String) (items : List CartItem) :
    ∀ (i : Nat) (acc : Int), productIndexLoop pid items i acc =
      (match lastMatchIdx pid items with
       | some n => (i : Int) + (n : Int)
       | none => acc) := by
  induction items with
  | nil => intro i acc; rfl
  | cons it rest ih =>
      intro i acc
      rw [productIndexLoop, ih]
      cases hrest : lastMatchIdx pid rest with
      | some n =>
          simp only [lastMatchIdx, hrest]
          push_cast
          ring
      | none =>
          simp only [lastMatchIdx, hrest]
          by_cases h : pid == it.product.pid
          · simp [h]
          · simp [h]

theorem productIndexOf_eq (pid : String) (items : List CartItem) :
    productIndexOf pid items =
      (match lastMatchIdx pid items with
       | some n => (n : Int)
       | none => -1) := by
  rw [productIndexOf, productIndexLoop_eq]
  cases lastMatchIdx pid items <;> simp

theorem lastMatchIdx_eq_none_iff (pid : String) (items : List CartItem) :
    lastMatchIdx pid items = none ↔
      ∀ it ∈ items, pid ≠ it.product.pid := by
  induction items with
  | nil => simp [lastMatchIdx]
  | cons it rest ih =>
      rw [lastMatchIdx]
      cases hrest : lastMatchIdx pid rest with
      | some n =>
          simp only []
          constructor
          · intro h; exact absurd h (by simp)
          · intro h
            exact absurd (ih.mpr fun z hz => h z (List.mem_cons_of_mem _ hz))
              (by simp [hrest])
      | none =>
          by_cases h : pid == it.product.pid
          · simp only [h, if_true]
            constructor
            · intro hc; exact absurd hc (by simp)
            · intro hall
              exact absurd (beq_iff_eq.mp h) (hall it (List.mem_cons_self it rest))
          · simp only [h, if_false]
            constructor
            · intro _ z hz
              rcases List.mem_cons.mp hz with rfl | hz'
              · intro heq; rw [heq] at h; simp at h
              · exact (ih.mp hrest) z hz'
            · intro _; rfl

theorem productIndexOf_eq_neg_one_iff (pid : String) (items : List CartItem) :
    productIndexOf pid items = -1 ↔ ∀ it ∈ items, pid ≠ it.product.pid := by
  rw [productIndexOf_eq, ← lastMatchIdx_eq_none_iff]
  cases lastMatchIdx pid items with
  | some n => simp
  | none => simp

theorem lastMatchIdx_spec (pid : String) (items : List CartItem) (n : Nat)
    (h : lastMatchIdx pid items = some n) :
    n < items.length ∧
    (∀ it, items.get? n = some it → pid = it.product.pid) ∧
    (∀ m, n < m → ∀ it, items.get? m = some it → pid ≠ it.product.pid) := by
  induction items generalizing n with
  | nil => simp [lastMatchIdx] at h
  | cons it rest ih =>
      rw [lastMatchIdx] at h
      cases hrest : lastMatchIdx pid rest with
      | some k =>
          rw [hrest] at h
          simp only [Option.some.injEq] at h
          subst h
          obtain ⟨hlt, hmatch, hafter⟩ := ih k hrest
          refine ⟨by simpa using hlt, ?_, ?_⟩
          · intro z hz
            exact hmatch z (by simpa using hz)
          · intro m hm z hz
            cases m with
            | zero => omega
            | succ m' => exact hafter m' (by omega) z (by simpa using hz)
      | none =>
          rw [hrest] at h
          by_cases hb : pid == it.product.pid
          · rw [if_pos hb] at h
            simp only [Option.some.injEq] at h
            subst h
            refine ⟨by simp, ?_, ?_⟩
            · intro z hz
              simp only [List.get?] at hz
              cases hz
              exact beq_iff_eq.mp hb
            · intro m hm z hz
              cases m with
              | zero => omega
              | succ m' =>
                  simp only [List.get?] at hz
                  exact (lastMatchIdx_eq_none_iff pid rest).mp hrest z
                    (List.get?_mem hz)
          · rw [if_neg hb] at h
            exact absurd h (by simp)

theorem length_updateQtyAt (l : List CartItem) (n : Nat) (q : Int) :
    (updateQtyAt l n q).length = l.length := by
  induction l generalizing n with
  | nil => rfl
  | cons it rest ih =>
      cases n with
      | zero => rfl
      | succ n' => simp [updateQtyAt, ih]

theorem updateQtyAt_get?_ne (l : List CartItem) (n m : Nat) (q : Int)
    (h : m ≠ n) : (updateQtyAt l n q).get? m = l.get? m := by
  induction l generalizing n m with
  | nil => rfl
  | cons it rest ih =>
      cases n with
      | zero =>
          cases m with
          | zero => omega
          | succ m' => rfl
      | succ n' =>
          cases m with
          | zero => rfl
          | succ m' => simpa [updateQtyAt] using ih n' m' (by omega)

theorem updateQtyAt_get?_eq (l : List CartItem) (n : Nat) (q : Int)
    (it : CartItem) (h : l.get? n = some it) :
    (updateQtyAt l n q).get? n = some { it with quantity := q } := by
  induction l generalizing n with
  | nil => simp at h
  | cons hd rest ih =>
      cases n with
      | zero =>
          simp only [List.get?] at h
          cases h
          rfl
      | succ n' => simpa [updateQtyAt] using ih n' (by simpa using h)

theorem pids_updateQtyAt (l : List CartItem) (n : Nat) (q : Int) :
    pids (updateQtyAt l n q) = pids l := by
  induction l generalizing n with
  | nil => rfl
  | cons it rest ih =>
      cases n with
      | zero => rfl
      | succ n' => simp [updateQtyAt, pids] at ih ⊢; exact ih n'

theorem removeAt_eq_take_drop (l : List CartItem) (n : Nat) :
    removeAt l n = l.take n ++ l.drop (n + 1) := by
  induction l generalizing n with
  | nil => cases n <;> rfl
  | cons it rest ih =>
      cases n with
      | zero => rfl
      | succ n' => simp [removeAt, ih n']

theorem removeAt_sublist (l : List CartItem) (n : Nat) :
    (removeAt l n).Sublist l := by
  induction l generalizing n with
  | nil => exact List.Sublist.refl _
  | cons it rest ih =>
      cases n with
      | zero => exact (List.Sublist.refl rest).cons it
      | succ n' => exact List.Sublist.cons₂ it (ih n')

theorem findCart_email (e : String) (carts : List Cart) (c : Cart)
    (h : findCart e carts = some c) : c.email = e := by
  have := List.find?_some h
  exact beq_iff_eq.mp this

theorem findUser_email (e : String) (users : List User) (u : User)
    (h : findUser e users = some u) : u.email = e := by
  have := List.find?_some h
  exact beq_iff_eq.mp this

theorem findProduct_pid (pid : String) (products : List Product) (p : Product)
    (h : findProduct pid products = some p) : p.pid = pid := by
  have := List.find?_some h
  exact beq_iff_eq.mp this

theorem findCart_cons (e : String) (d : Cart) (rest : List Cart) :
    findCart e (d :: rest) =
      (if d.email == e then some d else findCart e rest) := by
  rw [findCart, findCart]
  cases h : d.email == e <;> simp [List.find?, h]

theorem saveCart_cons (d : Cart) (rest : List Cart) (c' : Cart) :
    saveCart (d :: rest) c' =
      (if d.email == c'.email then c' else d) :: saveCart rest c' := rfl

theorem findUser_cons (e : String) (v : User) (rest : List User) :
    findUser e (v :: rest) =
      (if v.email == e then some v else findUser e rest) := by
  rw [findUser, findUser]
  cases h : v.email == e <;> simp [List.find?, h]

theorem saveUser_cons (v : User) (rest : List User) (u' : User) :
    saveUser (v :: rest) u' =
      (if v.email == u'.email then u' else v) :: saveUser rest u' := rfl

theorem findCart_saveCart (e : String) (carts : List Cart) (c c' : Cart)
    (he : c'.email = e) (h : findCart e carts = some c) :
    findCart e (saveCart carts c') = some c' := by
  induction carts with
  | nil => simp [findCart] at h
  | cons d rest ih =>
      rw [findCart_cons] at h
      rw [saveCart_cons, findCart_cons]
      by_cases hd : (d.email == e) = true
      · have hd' : (d.email == c'.email) = true := by rw [he]; exact hd
        have he' : (c'.email == e) = true := by simp [he]
        simp [hd', he']
      · have hd0 : (d.email == e) = false := by simpa using hd
        have hd' : (d.email == c'.email) = false := by rw [he]; exact hd0
        rw [hd0] at h
        simp only [Bool.false_eq_true, if_false] at h
        simp only [hd', Bool.false_eq_true, if_false, hd0]
        exact ih h

theorem saveCart_get?_ne (carts : List Cart) (c' : Cart) (i : Nat) (d : Cart)
    (h : carts.get? i = some d) (hne : d.email ≠ c'.email) :
    (saveCart carts c').get? i = some d := by
  rw [saveCart, List.get?_map, h]
  simp [hne]

theorem findUser_saveUser (e : String) (users : List User) (u u' : User)
    (he : u'.email = e) (h : findUser e users = some u) :
    findUser e (saveUser users u') = some u' := by
  induction users with
  | nil => simp [findUser] at h
  | cons v rest ih =>
      rw [findUser_cons] at h
      rw [saveUser_cons, findUser_cons]
      by_cases hv : (v.email == e) = true
      · have hv' : (v.email == u'.email) = true := by rw [he]; exact hv
        have he' : (u'.email == e) = true := by simp [he]
        simp [hv', he']
      · have hv0 : (v.email == e) = false := by simpa using hv
        have hv' : (v.email == u'.email) = false := by rw [he]; exact hv0
        rw [hv0] at h
        simp only [Bool.false_eq_true, if_false] at h
        simp only [hv', Bool.false_eq_true, if_false, hv0]
        exact ih h

theorem saveUser_get?_ne (users : List User) (u' : User) (i : Nat) (v : User)
    (h : users.get? i = some v) (hne : v.email ≠ u'.email) :
    (saveUser users u').get? i = some v := by
  rw [saveUser, List.get?_map, h]
  simp [hne]

theorem int_foldl_add (l : List Int) (a : Int) :
    l.foldl (· + ·) a = a + l.sum := by
  induction l generalizing a with
  | nil => simp
  | cons x rest ih =>
      rw [List.foldl, ih, List.sum_cons]
      ring

theorem findCart_append_single (e : String) (carts : List Cart) (c : Cart)
    (h : findCart e carts = none) :
    findCart e (carts ++ [c]) =
      (if c.email == e then some c else none) := by
  induction carts with
  | nil => cases hb : c.email == e <;> simp [findCart, List.find?, hb]
  | cons d rest ih =>
      rw [findCart_cons] at h
      rw [List.cons_append, findCart_cons]
      by_cases hd : (d.email == e) = true
      · rw [hd] at h; simp at h
      · have hd0 : (d.email == e) = false := by simpa using hd
        simp only [hd0, Bool.false_eq_true, if_false] at h ⊢
        exact ih h

theorem not_mem_pids (pid : String) (items : List CartItem)
    (h : ∀ it ∈ items, pid ≠ it.product.pid) : pid ∉ pids items := by
  intro hmem
  rw [pids, List.mem_map] at hmem
  obtain ⟨it, hit, heq⟩ := hmem
  exact h it hit heq.symm

theorem nodup_append_one (l : List String) (a : String)
    (hn : l.Nodup) (ha : a ∉ l) : (l ++ [a]).Nodup := by
  rw [List.nodup_append]
  refine ⟨hn, List.nodup_singleton a, ?_⟩
  intro x hx hx1
  rw [List.mem_singleton] at hx1
  subst hx1
  exact ha hx

theorem nodup_pids_filter_le_one (items : List CartItem)
    (h : (pids items).Nodup) (pid : String) :
    (items.filter (fun it => it.product.pid == pid)).length ≤ 1 := by
  induction items with
  | nil => simp
  | cons it rest ih =>
      simp only [pids, List.map_cons, List.nodup_cons] at h
      obtain ⟨hnot, hrest⟩ := h
      rw [List.filter]
      cases hb : it.product.pid == pid
      · exact ih hrest
      · have hempty : rest.filter (fun z => z.product.pid == pid) = [] := by
          rw [List.filter_eq_nil]
          intro z hz hzb
          apply hnot
          have : z.product.pid = pid := by simpa using hzb
          have : z.product.pid = it.product.pid := by
            rw [this]; exact (beq_iff_eq.mp hb).symm
          rw [List.mem_map]
          exact ⟨z, hz, this⟩
        simp [hempty]

/-- Uniqueness invariant on the (optional) stored cart of one user: the
product ids of its lines are pairwise distinct. -/
def cartUnique (o : Option Cart) : Prop :=
  ∀ c, o = some c → (pids c.cartItems).Nodup

theorem cartUnique_add (db : DB) (u : User) (pid : String) (q : Int)
    (h : cartUnique (findCart u.email db.carts)) :
    cartUnique (findCart u.email (addProductToCart db u pid q).2.carts) := by
  cases hfind : findCart u.email db.carts with
  | some cart =>
      have hemail : cart.email = u.email := findCart_email _ _ _ hfind
      have hnodup : (pids cart.cartItems).Nodup := h cart hfind
      by_cases hidx : (productIndexOf pid cart.cartItems == -1) = true
      · cases hp : findProduct pid db.products with
        | none =>
            simp only [addProductToCart, hfind, hidx, if_true, hp]
            intro c hc
            cases hc
            exact hnodup
        | some p =>
            simp only [addProductToCart, hfind, hidx, if_true, hp]
            intro c hc
            rw [findCart_saveCart u.email db.carts cart
              { email := cart.email,
                cartItems := cart.cartItems ++ [{ product := p, quantity := q }] }
              hemail hfind] at hc
            cases hc
            have hpid : p.pid = pid := findProduct_pid _ _ _ hp
            have hnomem : pid ∉ pids cart.cartItems := by
              apply not_mem_pids
              exact (productIndexOf_eq_neg_one_iff pid cart.cartItems).mp
                (beq_iff_eq.mp hidx)
            simp only [pids, List.map_append, List.map]
            rw [hpid]
            exact nodup_append_one _ _ (by simpa [pids] using hnodup)
              (by simpa [pids] using hnomem)
      · have hidx0 : (productIndexOf pid cart.cartItems == -1) = false := by
          simpa using hidx
        simp only [addProductToCart, hfind, hidx0, Bool.false_eq_true, if_false]
        intro c hc
        cases hc
        exact hnodup
  | none =>
      have hidx : (productIndexOf pid ([] : List CartItem) == -1) = true := by
        simp [productIndexOf, productIndexLoop]
      cases hp : findProduct pid db.products with
      | none =>
          simp only [addProductToCart, hfind, hidx, if_true, hp]
          intro c hc
          rw [findCart_append_single u.email db.carts _ hfind] at hc
          simp only [beq_self_eq_true, if_true, Option.some.injEq] at hc
          subst hc
          simp [pids]
      | some p =>
          simp only [addProductToCart, hfind, hidx, if_true, hp]
          intro c hc
          have hmid : findCart u.email
              (db.carts ++ [{ email := u.email, cartItems := [] }]) =
              some { email := u.email, cartItems := [] } := by
            rw [findCart_append_single u.email db.carts _ hfind]
            simp
          have hsave : findCart u.email
              (saveCart (db.carts ++ [{ email := u.email, cartItems := [] }])
                { email := u.email,
                  cartItems := [] ++ [{ product := p, quantity := q }] }) =
              some { email := u.email,
                     cartItems := [] ++ [{ product := p, quantity := q }] } :=
            findCart_saveCart _ _ _ _ rfl hmid
          rw [hsave] at hc
          cases hc
          simp [pids]

theorem cartUnique_update (db : DB) (u : User) (pid : String) (q : Int)
    (h : cartUnique (findCart u.email db.carts)) :
    cartUnique (findCart u.email (updateProductInCart db u pid q).2.carts) := by
  cases hfind : findCart u.email db.carts with
  | none =>
      simp only [updateProductInCart, hfind]
      intro c hc
      exact nomatch hc
  | some cart =>
      have hemail : cart.email = u.email := findCart_email _ _ _ hfind
      cases hp : findProduct pid db.products with
      | none =>
          simp only [updateProductInCart, hfind, hp]
          intro c hc
          cases hc
          exact h cart hfind
      | some p =>
          by_cases hidx : (productIndexOf pid cart.cartItems == -1) = true
          · simp only [updateProductInCart, hfind, hp, hidx, if_true]
            intro c hc
            cases hc
            exact h cart hfind
          · have hidx0 : (productIndexOf pid cart.cartItems == -1) = false := by
              simpa using hidx
            simp only [updateProductInCart, hfind, hp, hidx0,
              Bool.false_eq_true, if_false]
            intro c hc
            rw [findCart_saveCart u.email db.carts cart
              { email := cart.email,
                cartItems := updateQtyAt cart.cartItems
                  (productIndexOf pid cart.cartItems).toNat q }
              hemail hfind] at hc
            cases hc
            rw [pids_updateQtyAt]
            exact h cart hfind

theorem cartUnique_remove (db : DB) (u : User) (pid : String)
    (h : cartUnique (findCart u.email db.carts)) :
    cartUnique (findCart u.email (deleteProductFromCart db u pid).2.carts) := by
  cases hfind : findCart u.email db.carts with
  | none =>
      simp only [deleteProductFromCart, hfind]
      intro c hc
      exact nomatch hc
  | some cart =>
      have hemail : cart.email = u.email := findCart_email _ _ _ hfind
      by_cases hidx : (productIndexOf pid cart.cartItems == -1) = true
      · simp only [deleteProductFromCart, hfind, hidx, if_true]
        intro c hc
        cases hc
        exact h cart hfind
      · have hidx0 : (productIndexOf pid cart.cartItems == -1) = false := by
          simpa using hidx
        simp only [deleteProductFromCart, hfind, hidx0,
          Bool.false_eq_true, if_false]
        intro c hc
        rw [findCart_saveCart u.email db.carts cart
          { email := cart.email,
            cartItems := removeAt cart.cartItems
              (productIndexOf pid cart.cartItems).toNat }
          hemail hfind] at hc
        cases hc
        have hsub : (pids (removeAt cart.cartItems
            (productIndexOf pid cart.cartItems).toNat)).Sublist
            (pids cart.cartItems) :=
          List.Sublist.map _ (removeAt_sublist _ _)
        exact (h cart hfind).sublist hsub

theorem cartUnique_runOp (db : DB) (u : User) (op : CartOp)
    (h : cartUnique (findCart u.email db.carts)) :
    cartUnique (findCart u.email (runOp db u op).carts) := by
  cases op with
  | add pid q => exact cartUnique_add db u pid q h
  | update pid q => exact cartUnique_update db u pid q h
  | remove pid => exact cartUnique_remove db u pid h

theorem cartUnique_runOps (db : DB) (u : User) (ops : List CartOp)
    (h : cartUnique (findCart u.email db.carts)) :
    cartUnique (findCart u.email (runOps db u ops).carts) := by
  induction ops generalizing db with
  | nil => exact h
  | cons op rest ih =>
      rw [runOps, List.foldl]
      exact ih (runOp db u op) (cartUnique_runOp db u op h)

theorem cartTotal_eq_sum (items : List CartItem) :
    cartTotal items =
      (items.map (fun it => it.quantity * it.product.cost)).sum := by
  rw [cartTotal, int_foldl_add, zero_add]
  induction items with
  | nil => rfl
  | cons it rest ih =>
      simp only [List.map, List.sum_cons, ih]
      ring_nf

theorem lastMatchIdx_of_mem (pid : String) (items : List CartItem)
    (hex : ∃ it ∈ items, pid = it.product.pid) :
    ∃ n, lastMatchIdx pid items = some n := by
  cases h : lastMatchIdx pid items with
  | some n => exact ⟨n, rfl⟩
  | none =>
      obtain ⟨it, hit, hm⟩ := hex
      exact absurd hm ((lastMatchIdx_eq_none_iff pid items).mp h it hit)

theorem productIndexOf_of_lastMatch (pid : String) (items : List CartItem)
    (n : Nat) (h : lastMatchIdx pid items = some n) :
    productIndexOf pid items = (n : Int) ∧
    (productIndexOf pid items == -1) = false ∧
    (productIndexOf pid items).toNat = n := by
  have heq : productIndexOf pid items = (n : Int) := by
    rw [productIndexOf_eq, h]
  refine ⟨heq, ?_, ?_⟩
  · rw [heq, beq_eq_false_iff_ne]
    omega
  · rw [heq]
    omega

/- Concrete fixtures used by the witness and counterexample theorems.  The
first group reproduces the spec's checkout scenario: cart
(widget, cost 10, qty 2), (gadget, cost 5, qty 1), wallet 30, non-default
address, plus a second user whose records must stay untouched. -/

def widget : Product := { pid := "widget", cost := 10 }

def gadget : Product := { pid := "gadget", cost := 5 }

def john : User :=
  { email := "john@qkart.io", walletMoney := 30, address := "42 Elm Street" }

def mary : User :=
  { email := "mary@qkart.io", walletMoney := 100, address := "7 Oak Avenue" }

def johnCart : Cart :=
  { email := "john@qkart.io",
    cartItems := [{ product := widget, quantity := 2 },
                  { product := gadget, quantity := 1 }] }

def maryCart : Cart :=
  { email := "mary@qkart.io",
    cartItems := [{ product := gadget, quantity := 3 }] }

def doohickey : Product := { pid := "doohickey", cost := 7 }

def demoDB : DB :=
  { users := [john, mary], carts := [johnCart, maryCart],
    products := [widget, gadget, doohickey] }

def emptyDB : DB :=
  { users := [john, mary], carts := [maryCart], products := [widget, gadget] }

/-- A cart that violates the uniqueness invariant: two lines for `widget`. -/
def dupCart : Cart :=
  { email := "dup@qkart.io",
    cartItems := [{ product := widget, quantity := 1 },
                  { product := widget, quantity := 2 }] }

def dupUser : User :=
  { email := "dup@qkart.io", walletMoney := 50, address := "9 Pine Road" }

def dupDB : DB :=
  { users := [dupUser], carts := [dupCart], products := [widget, gadget] }

/-- A user who never set an address (it still equals the sentinel). -/
def noAddrUser : User :=
  { email := "noaddr@qkart.io", walletMoney := 1, address := default_address }

def noAddrCart : Cart :=
  { email := "noaddr@qkart.io",
    cartItems := [{ product := widget, quantity := 4 }] }

def noAddrDB : DB :=
  { users := [noAddrUser], carts := [noAddrCart], products := [widget, gadget] }

/-- C3: for every user U and product P, after any finite sequence of addItem,
updateItem, and removeItem calls starting from an empty or absent cart, U's
cart contains at most one CartItem whose product identity equals P. -/
theorem claim_C3_cart_uniqueness (db : DB) (u : User) (ops : List CartOp)
    (h0 : ∀ c, findCart u.email db.carts = some c → c.cartItems = []) :
    ∀ c, findCart u.email (runOps db u ops).carts = some c →
      ∀ pid,
        (c.cartItems.filter (fun it => it.product.pid == pid)).length ≤ 1 := by
  have hinv : cartUnique (findCart u.email db.carts) := by
    intro c hc
    rw [h0 c hc]
    simp [pids]
  have hinv' := cartUnique_runOps db u ops hinv
  intro c hc pid
  exact nodup_pids_filter_le_one _ (hinv' c hc) pid

theorem claim_C3_cart_uniqueness_witness :
    ((Cart.mk "john@qkart.io" [{ product := gadget, quantity := 1 }]).cartItems.filter
      (fun it => it.product.pid == "widget")).length ≤ 1 :=
  claim_C3_cart_uniqueness emptyDB john
    [.add "widget" 3, .add "widget" 4, .update "widget" 9,
     .add "gadget" 1, .remove "widget"]
    (fun c hc => nomatch hc)
    (Cart.mk "john@qkart.io" [{ product := gadget, quantity := 1 }])
    (by decide) "widget"

/-- C4: for every cart that already contains an item for product P,
addItem(U, P, q) fails with the ConflictError for every quantity q, and the
persisted state is exactly the state before the call (no quantity merge, no
write). -/
theorem claim_C4_add_duplicate_conflict (db : DB) (u : User) (pid : String)
    (q : Int) (c : Cart) (hc : findCart u.email db.carts = some c)
    (hdup : ∃ it ∈ c.cartItems, pid = it.product.pid) :
    addProductToCart db u pid q = (.error .conflictProductInCart, db) := by
  obtain ⟨n, hn⟩ := lastMatchIdx_of_mem pid c.cartItems hdup
  obtain ⟨-, hidx0, -⟩ := productIndexOf_of_lastMatch pid c.cartItems n hn
  simp only [addProductToCart, hc, hidx0, Bool.false_eq_true, if_false]

theorem claim_C4_add_duplicate_conflict_witness :
    addProductToCart demoDB john "widget" 5 =
      (.error .conflictProductInCart, demoDB) :=
  claim_C4_add_duplicate_conflict demoDB john "widget" 5 johnCart
    (by decide) (by decide)

/-- C5: checkout with the default sentinel address and a cart total that also
exceeds the wallet balance fails with the address-not-set error, not the
insufficient-balance error, and changes nothing. -/
theorem claim_C5_address_gate_first (db : DB) (u : User) (c : Cart)
    (hc : findCart u.email db.carts = some c)
    (hne : c.cartItems ≠ [])
    (haddr : u.address = default_address)
    (hbal : u.walletMoney < cartTotal c.cartItems) :
    checkout db u = (.err .validationAddressNotSet, db) := by
  have hlen : (c.cartItems.length == 0) = false := by
    rw [beq_eq_false_iff_ne]
    simpa [List.length_eq_zero] using hne
  have haddr' : (u.address == default_address) = true := by
    simp [haddr]
  simp only [checkout, checkoutWith, hc, hlen, Bool.false_eq_true, if_false,
    haddr', if_true]

theorem checkout_success_eq (db : DB) (u : User) (c : Cart)
    (hc : findCart u.email db.carts = some c)
    (hne : c.cartItems ≠ [])
    (haddr : u.address ≠ default_address)
    (hbal : cartTotal c.cartItems ≤ u.walletMoney) :
    checkout db u = (.ok,
      { db with
        users := saveUser db.users
          { u with walletMoney := u.walletMoney - cartTotal c.cartItems },
        carts := saveCart db.carts { email := c.email, cartItems := [] } }) := by
  have hlen : (c.cartItems.length == 0) = false := by
    rw [beq_eq_false_iff_ne]
    simpa [List.length_eq_zero] using hne
  have haddr' : (u.address == default_address) = false :=
    beq_eq_false_iff_ne.mpr haddr
  simp only [checkout, checkoutWith, hc, hlen, haddr', Bool.false_eq_true,
    if_false]
  rw [if_neg (by omega : ¬ u.walletMoney - cartTotal c.cartItems < 0)]
  simp

/-- C9: when the computed total equals the wallet balance exactly, checkout
succeeds (the insufficient-balance check is strict) and the persisted
walletMoney is exactly zero. -/
theorem claim_C9_exact_balance (db : DB) (u : User) (c : Cart)
    (hu : findUser u.email db.users = some u)
    (hc : findCart u.email db.carts = some c)
    (hne : c.cartItems ≠ [])
    (haddr : u.address ≠ default_address)
    (heq : cartTotal c.cartItems = u.walletMoney) :
    (checkout db u).1 = .ok ∧
    findUser u.email (checkout db u).2.users =
      some { u with walletMoney := 0 } := by
  have heq0 : u.walletMoney - cartTotal c.cartItems = 0 := by omega
  rw [checkout_success_eq db u c hc hne haddr (le_of_eq heq)]
  refine ⟨rfl, ?_⟩
  show findUser u.email (saveUser db.users
    { u with walletMoney := u.walletMoney - cartTotal c.cartItems }) =
    some { u with walletMoney := 0 }
  rw [heq0]
  exact findUser_saveUser u.email db.users u _ rfl hu

theorem claim_C9_exact_balance_witness :
    cartTotal (Cart.mk "dup@qkart.io"
      [{ product := widget, quantity := 1 },
       { product := widget, quantity := 2 }]).cartItems =
      (30 : Int) ∧
    (checkout (DB.mk [User.mk "dup@qkart.io" 30 "9 Pine Road"] [dupCart]
        [widget, gadget]) (User.mk "dup@qkart.io" 30 "9 Pine Road")).1 = .ok ∧
    findUser "dup@qkart.io"
      (checkout (DB.mk [User.mk "dup@qkart.io" 30 "9 Pine Road"] [dupCart]
        [widget, gadget]) (User.mk "dup@qkart.io" 30 "9 Pine Road")).2.users =
      some { User.mk "dup@qkart.io" 30 "9 Pine Road" with walletMoney := 0 } :=
  ⟨by decide,
   claim_C9_exact_balance
     (DB.mk [User.mk "dup@qkart.io" 30 "9 Pine Road"] [dupCart]
       [widget, gadget])
     (User.mk "dup@qkart.io" 30 "9 Pine Road") dupCart
     (by decide) (by decide) (by decide) (by decide) (by decide)⟩

/-- C1: under a non-empty cart, a non-default address, a wallet covering the
total, and the caller context matching the stored user record, checkout
succeeds, the persisted cart is emptied, the persisted wallet drops by
exactly the sum of quantity times cost, stays non-negative, and every other
user document and cart document is untouched. -/
theorem claim_C1_checkout_success (db : DB) (u : User) (c : Cart)
    (hu : findUser u.email db.users = some u)
    (hc : findCart u.email db.carts = some c)
    (hne : c.cartItems ≠ [])
    (haddr : u.address ≠ default_address)
    (hbal : cartTotal c.cartItems ≤ u.walletMoney) :
    ∃ db', checkout db u = (.ok, db') ∧
      findCart u.email db'.carts =
        some { email := c.email, cartItems := [] } ∧
      findUser u.email db'.users =
        some { u with walletMoney := u.walletMoney -
          (c.cartItems.map (fun it => it.quantity * it.product.cost)).sum } ∧
      0 ≤ u.walletMoney -
        (c.cartItems.map (fun it => it.quantity * it.product.cost)).sum ∧
      (∀ i v, db.users.get? i = some v → v.email ≠ u.email →
        db'.users.get? i = some v) ∧
      (∀ i d, db.carts.get? i = some d → d.email ≠ u.email →
        db'.carts.get? i = some d) := by
  have hsum := cartTotal_eq_sum c.cartItems
  have hcemail : c.email = u.email := findCart_email _ _ _ hc
  refine ⟨_, checkout_success_eq db u c hc hne haddr hbal, ?_, ?_, ?_, ?_, ?_⟩
  · exact findCart_saveCart u.email db.carts c _ hcemail hc
  · rw [← hsum]
    exact findUser_saveUser u.email db.users u _ rfl hu
  · rw [← hsum]
    omega
  · intro i v hv hne'
    exact saveUser_get?_ne db.users _ i v hv hne'
  · intro i d hd hne'
    exact saveCart_get?_ne db.carts _ i d hd
      (fun h => hne' (h.trans hcemail))

theorem claim_C1_checkout_success_witness :
    ∃ db', checkout demoDB john = (.ok, db') ∧
      findCart john.email db'.carts =
        some { email := johnCart.email, cartItems := [] } ∧
      findUser john.email db'.users =
        some { john with walletMoney := john.walletMoney -
          (johnCart.cartItems.map
            (fun it => it.quantity * it.product.cost)).sum } ∧
      0 ≤ john.walletMoney -
        (johnCart.cartItems.map
          (fun it => it.quantity * it.product.cost)).sum ∧
      (∀ i v, demoDB.users.get? i = some v → v.email ≠ john.email →
        db'.users.get? i = some v) ∧
      (∀ i d, demoDB.carts.get? i = some d → d.email ≠ john.email →
        db'.carts.get? i = some d) :=
  claim_C1_checkout_success demoDB john johnCart
    (by decide) (by decide) (by decide) (by decide) (by decide)

/-- C2: the checkout dual write is not atomic in the code.  At the failing
input (healthy preconditions, `user.save()` succeeds, `cart.save()` fails)
the invocation aborts with the raw storage failure, yet the persisted state
has the wallet already debited (30 down to 5) while the persisted cart still
holds both lines: exactly the state the claim says must never exist, and the
failure is not surfaced as the 500-style InfrastructureError of the ApiError
taxonomy. -/
theorem claim_C2_checkout_not_atomic :
    (checkoutWith demoDB john true false).1 = .storageFailure ∧
    (checkoutWith demoDB john true false).1 ≠ .err .infrastructure ∧
    findUser "john@qkart.io" (checkoutWith demoDB john true false).2.users =
      some { email := "john@qkart.io", walletMoney := 5,
             address := "42 Elm Street" } ∧
    findCart "john@qkart.io" (checkoutWith demoDB john true false).2.carts =
      some johnCart ∧
    johnCart.cartItems ≠ [] := by
  decide

theorem claim_C5_address_gate_first_witness :
    noAddrUser.walletMoney < cartTotal noAddrCart.cartItems ∧
    checkout noAddrDB noAddrUser = (.err .validationAddressNotSet, noAddrDB) :=
  ⟨by decide,
   claim_C5_address_gate_first noAddrDB noAddrUser noAddrCart
     (by decide) (by decide) rfl (by decide)⟩

/-- C6: with the cart and the product both found, updateItem overwrites the
matched line's quantity with exactly the supplied value (no delta or merge),
leaves every other line untouched, persists the cart, and returns it; when
no line matches, it fails with the ValidationError and the persisted state is
unchanged. -/
theorem claim_C6_update_semantics (db : DB) (u : User) (pid : String)
    (q : Int) (c : Cart) (p : Product)
    (hc : findCart u.email db.carts = some c)
    (hp : findProduct pid db.products = some p) :
    ((∃ it ∈ c.cartItems, pid = it.product.pid) →
      ∃ n it cart', c.cartItems.get? n = some it ∧ pid = it.product.pid ∧
        updateProductInCart db u pid q =
          (.ok cart', { db with carts := saveCart db.carts cart' }) ∧
        cart'.email = c.email ∧
        cart'.cartItems.get? n = some { it with quantity := q } ∧
        (∀ m, m ≠ n → cart'.cartItems.get? m = c.cartItems.get? m) ∧
        cart'.cartItems.length = c.cartItems.length ∧
        findCart u.email (saveCart db.carts cart') = some cart') ∧
    ((∀ it ∈ c.cartItems, pid ≠ it.product.pid) →
      updateProductInCart db u pid q = (.error .validationNotInCart, db)) := by
  constructor
  · intro hex
    obtain ⟨n, hn⟩ := lastMatchIdx_of_mem pid c.cartItems hex
    obtain ⟨-, hidx0, htn⟩ := productIndexOf_of_lastMatch pid c.cartItems n hn
    obtain ⟨hlt, hmatch, -⟩ := lastMatchIdx_spec pid c.cartItems n hn
    obtain ⟨it, hit⟩ : ∃ it, c.cartItems.get? n = some it :=
      ⟨c.cartItems.get ⟨n, hlt⟩, List.get?_eq_get hlt⟩
    refine ⟨n, it, { email := c.email, cartItems := updateQtyAt c.cartItems n q },
      hit, hmatch it hit, ?_, rfl, ?_, ?_, ?_, ?_⟩
    · simp only [updateProductInCart, hc, hp, hidx0, Bool.false_eq_true,
        if_false, htn]
    · exact updateQtyAt_get?_eq c.cartItems n q it hit
    · intro m hm
      exact updateQtyAt_get?_ne c.cartItems n m q hm
    · exact length_updateQtyAt c.cartItems n q
    · exact findCart_saveCart u.email db.carts c
        { email := c.email, cartItems := updateQtyAt c.cartItems n q }
        (findCart_email u.email db.carts c hc) hc
  · intro hall
    have hidx : (productIndexOf pid c.cartItems == -1) = true := by
      rw [beq_iff_eq]
      exact (productIndexOf_eq_neg_one_iff pid c.cartItems).mpr hall
    simp only [updateProductInCart, hc, hp, hidx, if_true]

theorem claim_C6_update_semantics_witness :
    (∃ n it cart', johnCart.cartItems.get? n = some it ∧
        "gadget" = it.product.pid ∧
        updateProductInCart demoDB john "gadget" 7 =
          (.ok cart', { demoDB with carts := saveCart demoDB.carts cart' }) ∧
        cart'.email = johnCart.email ∧
        cart'.cartItems.get? n = some { it with quantity := 7 } ∧
        (∀ m, m ≠ n → cart'.cartItems.get? m = johnCart.cartItems.get? m) ∧
        cart'.cartItems.length = johnCart.cartItems.length ∧
        findCart john.email (saveCart demoDB.carts cart') = some cart') :=
  (claim_C6_update_semantics demoDB john "gadget" 7 johnCart gadget
    (by decide) (by decide)).1 (by decide)

/-- C7: with the cart found and exactly one line matching the product,
removeItem deletes precisely that line — the remaining lines keep their
relative order — and persists the cart; when no line matches, it fails with
the ValidationError and the persisted state is unchanged. -/
theorem claim_C7_remove_semantics (db : DB) (u : User) (pid : String)
    (c : Cart) (hc : findCart u.email db.carts = some c) :
    (∀ n it, c.cartItems.get? n = some it → pid = it.product.pid →
      (∀ m it', m ≠ n → c.cartItems.get? m = some it' →
        pid ≠ it'.product.pid) →
      deleteProductFromCart db u pid =
        (.ok (),
          { db with
            carts := saveCart db.carts
              { email := c.email,
                cartItems :=
                  c.cartItems.take n ++ c.cartItems.drop (n + 1) } }) ∧
      findCart u.email (saveCart db.carts
          { email := c.email,
            cartItems := c.cartItems.take n ++ c.cartItems.drop (n + 1) }) =
        some { email := c.email,
               cartItems :=
                 c.cartItems.take n ++ c.cartItems.drop (n + 1) }) ∧
    ((∀ it ∈ c.cartItems, pid ≠ it.product.pid) →
      deleteProductFromCart db u pid = (.error .validationNotInCart, db)) := by
  constructor
  · intro n it hget hmatch huniq
    have hex : ∃ z ∈ c.cartItems, pid = z.product.pid :=
      ⟨it, List.get?_mem hget, hmatch⟩
    obtain ⟨m, hm⟩ := lastMatchIdx_of_mem pid c.cartItems hex
    obtain ⟨hltm, hmatchm, -⟩ := lastMatchIdx_spec pid c.cartItems m hm
    obtain ⟨itm, hitm⟩ : ∃ z, c.cartItems.get? m = some z :=
      ⟨c.cartItems.get ⟨m, hltm⟩, List.get?_eq_get hltm⟩
    have hmn : m = n := by
      by_contra hne'
      exact huniq m itm hne' hitm (hmatchm itm hitm)
    subst hmn
    obtain ⟨-, hidx0, htn⟩ := productIndexOf_of_lastMatch pid c.cartItems m hm
    constructor
    · simp only [deleteProductFromCart, hc, hidx0, Bool.false_eq_true,
        if_false, htn, removeAt_eq_take_drop]
    · exact findCart_saveCart u.email db.carts c
        { email := c.email,
          cartItems := c.cartItems.take m ++ c.cartItems.drop (m + 1) }
        (findCart_email u.email db.carts c hc) hc
  · intro hall
    have hidx : (productIndexOf pid c.cartItems == -1) = true := by
      rw [beq_iff_eq]
      exact (productIndexOf_eq_neg_one_iff pid c.cartItems).mpr hall
    simp only [deleteProductFromCart, hc, hidx, if_true]

theorem claim_C7_remove_semantics_witness :
    deleteProductFromCart demoDB john "widget" =
      (.ok (),
        { demoDB with
          carts := saveCart demoDB.carts
            { email := johnCart.email,
              cartItems := johnCart.cartItems.take 0 ++
                johnCart.cartItems.drop 1 } }) ∧
    findCart john.email (saveCart demoDB.carts
        { email := johnCart.email,
          cartItems := johnCart.cartItems.take 0 ++
            johnCart.cartItems.drop 1 }) =
      some { email := johnCart.email,
             cartItems := johnCart.cartItems.take 0 ++
               johnCart.cartItems.drop 1 } :=
  (claim_C7_remove_semantics demoDB john "widget" johnCart (by decide)).1
    0 { product := widget, quantity := 2 } (by decide) (by decide)
    (by
      intro m it' hm hget
      match m, hget with
      | 1, hget =>
          cases hget
          decide
      | Nat.succ (Nat.succ m'), hget => exact nomatch hget)

/-- C8 fails on the code: with two stored lines sharing the product id
`widget` (quantities 1 and 2), updateItem with quantity 5 leaves the first
match untouched and overwrites the second (last) match, and removeItem
removes the second (last) match — not the first, as the claim states.  The
scan loop of src/services/cart.service.js lines 144-149 and 185-190 has no
break, so a later match overwrites `productIndex`. -/
theorem claim_C8_first_match_counterexample :
    findCart "dup@qkart.io"
      (updateProductInCart dupDB dupUser "widget" 5).2.carts =
      some { email := "dup@qkart.io",
             cartItems := [{ product := widget, quantity := 1 },
                           { product := widget, quantity := 5 }] } ∧
    ({ email := "dup@qkart.io",
       cartItems := [{ product := widget, quantity := 1 },
                     { product := widget, quantity := 5 }] } : Cart) ≠
      { email := "dup@qkart.io",
        cartItems := [{ product := widget, quantity := 5 },
                      { product := widget, quantity := 2 }] } ∧
    findCart "dup@qkart.io"
      (deleteProductFromCart dupDB dupUser "widget").2.carts =
      some { email := "dup@qkart.io",
             cartItems := [{ product := widget, quantity := 1 }] } ∧
    ({ email := "dup@qkart.io",
       cartItems := [{ product := widget, quantity := 1 }] } : Cart) ≠
      { email := "dup@qkart.io",
        cartItems := [{ product := widget, quantity := 2 }] } := by
  decide

/-- C8 as amended: when several stored lines share the same product id,
updateItem and removeItem act deterministically on the LAST matching line
only — updateItem changes only the last match's quantity, and removeItem
removes only the last match, the remaining lines keeping their order. -/
theorem claim_C8_amended_last_match (db : DB) (u : User) (pid : String)
    (q : Int) (c : Cart) (p : Product)
    (hc : findCart u.email db.carts = some c)
    (hp : findProduct pid db.products = some p)
    (hex : ∃ it ∈ c.cartItems, pid = it.product.pid) :
    ∃ n it, c.cartItems.get? n = some it ∧ pid = it.product.pid ∧
      (∀ m, n < m → ∀ it', c.cartItems.get? m = some it' →
        pid ≠ it'.product.pid) ∧
      (updateProductInCart db u pid q).1 =
        .ok { email := c.email, cartItems := updateQtyAt c.cartItems n q } ∧
      (updateQtyAt c.cartItems n q).get? n = some { it with quantity := q } ∧
      (∀ m, m ≠ n →
        (updateQtyAt c.cartItems n q).get? m = c.cartItems.get? m) ∧
      deleteProductFromCart db u pid =
        (.ok (),
          { db with
            carts := saveCart db.carts
              { email := c.email,
                cartItems :=
                  c.cartItems.take n ++ c.cartItems.drop (n + 1) } }) := by
  obtain ⟨n, hn⟩ := lastMatchIdx_of_mem pid c.cartItems hex
  obtain ⟨-, hidx0, htn⟩ := productIndexOf_of_lastMatch pid c.cartItems n hn
  obtain ⟨hlt, hmatch, hafter⟩ := lastMatchIdx_spec pid c.cartItems n hn
  obtain ⟨it, hit⟩ : ∃ it, c.cartItems.get? n = some it :=
    ⟨c.cartItems.get ⟨n, hlt⟩, List.get?_eq_get hlt⟩
  refine ⟨n, it, hit, hmatch it hit, hafter, ?_, ?_, ?_, ?_⟩
  · simp only [updateProductInCart, hc, hp, hidx0, Bool.false_eq_true,
      if_false, htn]
  · exact updateQtyAt_get?_eq c.cartItems n q it hit
  · intro m hm
    exact updateQtyAt_get?_ne c.cartItems n m q hm
  · simp only [deleteProductFromCart, hc, hidx0, Bool.false_eq_true,
      if_false, htn, removeAt_eq_take_drop]

theorem claim_C8_amended_last_match_witness :
    ∃ n it, dupCart.cartItems.get? n = some it ∧ "widget" = it.product.pid ∧
      (∀ m, n < m → ∀ it', dupCart.cartItems.get? m = some it' →
        "widget" ≠ it'.product.pid) ∧
      (updateProductInCart dupDB dupUser "widget" 5).1 =
        .ok { email := dupCart.email,
              cartItems := updateQtyAt dupCart.cartItems n 5 } ∧
      (updateQtyAt dupCart.cartItems n 5).get? n =
        some { it with quantity := 5 } ∧
      (∀ m, m ≠ n →
        (updateQtyAt dupCart.cartItems n 5).get? m =
          dupCart.cartItems.get? m) ∧
      deleteProductFromCart dupDB dupUser "widget" =
        (.ok (),
          { dupDB with
            carts := saveCart dupDB.carts
              { email := dupCart.email,
                cartItems :=
                  dupCart.cartItems.take n ++
                    dupCart.cartItems.drop (n + 1) } }) :=
  claim_C8_amended_last_match dupDB dupUser "widget" 5 dupCart widget
    (by decide) (by decide) (by decide)

/-- C10: no quantity validation anywhere — for every integer quantity q,
zero and negatives included, addItem on a cart without the (known) product
appends a line carrying exactly q, and updateItem on a cart containing the
product overwrites the matched line's quantity with exactly q. -/
theorem claim_C10_no_quantity_validation (db : DB) (u : User) (pid : String)
    (q : Int) (c : Cart) (p : Product)
    (hc : findCart u.email db.carts = some c)
    (hp : findProduct pid db.products = some p) :
    ((∀ it ∈ c.cartItems, pid ≠ it.product.pid) →
      addProductToCart db u pid q =
        (.ok { email := c.email,
               cartItems := c.cartItems ++ [{ product := p, quantity := q }] },
         { db with
           carts := saveCart db.carts
             { email := c.email,
               cartItems :=
                 c.cartItems ++ [{ product := p, quantity := q }] } })) ∧
    ((∃ it ∈ c.cartItems, pid = it.product.pid) →
      ∃ n it cart', c.cartItems.get? n = some it ∧
        (updateProductInCart db u pid q).1 = .ok cart' ∧
        cart'.cartItems.get? n = some { it with quantity := q }) := by
  constructor
  · intro hall
    have hidx : (productIndexOf pid c.cartItems == -1) = true := by
      rw [beq_iff_eq]
      exact (productIndexOf_eq_neg_one_iff pid c.cartItems).mpr hall
    simp only [addProductToCart, hc, hidx, if_true, hp]
  · intro hex
    obtain ⟨n, hn⟩ := lastMatchIdx_of_mem pid c.cartItems hex
    obtain ⟨-, hidx0, htn⟩ := productIndexOf_of_lastMatch pid c.cartItems n hn
    obtain ⟨hlt, -, -⟩ := lastMatchIdx_spec pid c.cartItems n hn
    obtain ⟨it, hit⟩ : ∃ it, c.cartItems.get? n = some it :=
      ⟨c.cartItems.get ⟨n, hlt⟩, List.get?_eq_get hlt⟩
    refine ⟨n, it, { email := c.email, cartItems := updateQtyAt c.cartItems n q },
      hit, ?_, ?_⟩
    · simp only [updateProductInCart, hc, hp, hidx0, Bool.false_eq_true,
        if_false, htn]
    · exact updateQtyAt_get?_eq c.cartItems n q it hit

theorem claim_C10_no_quantity_validation_witness :
    (addProductToCart demoDB john "doohickey" (-3) =
      (.ok { email := johnCart.email,
             cartItems := johnCart.cartItems ++
               [{ product := doohickey, quantity := -3 }] },
       { demoDB with
         carts := saveCart demoDB.carts
           { email := johnCart.email,
             cartItems := johnCart.cartItems ++
               [{ product := doohickey, quantity := -3 }] } })) ∧
    (∃ n it cart', johnCart.cartItems.get? n = some it ∧
      (updateProductInCart demoDB john "widget" 0).1 = .ok cart' ∧
      cart'.cartItems.get? n = some { it with quantity := 0 }) :=
  ⟨(claim_C10_no_quantity_validation demoDB john "doohickey" (-3) johnCart
      doohickey (by decide) (by decide)).1 (by decide),
   (claim_C10_no_quantity_validation demoDB john "widget" 0 johnCart
      widget (by decide) (by decide)).2 (by decide)⟩

end Qkart
